import Mathlib

/-!
Verification development for the bronze-layer ingestion pipeline.

Shallow embedding of the version gate, manifest read-merge-write, folder
rotation, server-side copy primitive, FTP connect retry loop and the
extraction stage, translated from `src/utils/versioning.py`,
`src/utils/data.py`, `src/scripts/ftp.py`, `src/scripts/web.py`,
`src/scripts/api.py` and `src/scripts/extractor.py`.
-/

/-- JSON-like values as they occur in the manifest document: strings,
booleans, arrays of strings, and objects with insertion-ordered fields
(mirroring Python dicts, whose keys keep insertion order). -/
inductive JVal where
  | str (s : String)
  | bool (b : Bool)
  | arr (xs : List String)
  | obj (fields : List (String × JVal))

/-- The manifest document: a top-level mapping from source identifier to
its entry, insertion-ordered like a Python dict parsed from JSON. -/
abbrev Manifest := List (String × JVal)

/-- Assignment `d[k] = v` on a Python dict modelled as an association
list: replace the value at an existing key in place, else append. -/
def setKey {α : Type} : List (String × α) → String → α → List (String × α)
  | [], k, v => [(k, v)]
  | p :: rest, k, v => if p.1 = k then (k, v) :: rest else p :: setKey rest k v

/-- Lookup `d.get(k)` on a Python dict modelled as an association list. -/
def lookupKey {α : Type} : List (String × α) → String → Option α
  | [], _ => none
  | p :: rest, k => if p.1 = k then some p.2 else lookupKey rest k

/-- Deletion `del d[k]` / blob deletion: drop every binding of the key. -/
def deleteKey {α : Type} (m : List (String × α)) (k : String) : List (String × α) :=
  m.filter (fun p => p.1 != k)

/-- Field names of a manifest entry (the keys of the JSON object). -/
def fieldNames : JVal → List String
  | JVal.obj fields => fields.map Prod.fst
  | _ => []

/-- Field names of the entry stored for a source id, `[]` when absent. -/
def entryFieldNames (m : Manifest) (source_id : String) : List String :=
  ((lookupKey m source_id).map fieldNames).getD []

/-- Field access `entry.get(k)` for a JSON object entry. -/
def getField : JVal → String → Option JVal
  | JVal.obj fields, k => lookupKey fields k
  | _, _ => none

/-- Field assignment `entry[k] = v` for a JSON object entry. -/
def setField : JVal → String → JVal → JVal
  | JVal.obj fields, k, v => JVal.obj (setKey fields k v)
  | other, _, _ => other

/-- Python `s.startswith(pre)` / the `name_starts_with` prefix filter of
`container.list_blobs`, computed on the character lists so that concrete
instances evaluate inside the kernel. -/
def pyStartsWith (s pre : String) : Bool :=
  pre.data.isPrefixOf s.data

/-- Python `s.endswith(suf)`. -/
def pyEndsWith (s suf : String) : Bool :=
  suf.data.reverse.isPrefixOf s.data.reverse

/-- Python `s.lower()` (ASCII case folding suffices for the paths here). -/
def pyLower (s : String) : String :=
  ⟨s.data.map Char.toLower⟩

/-- The characters Python `str.strip()` removes by default. -/
def pyWhitespaceChar (c : Char) : Bool :=
  c == ' ' || c == '\t' || c == '\n' || c == '\r' || c == '\x0b' || c == '\x0c'

/-- Python `s.strip()`: drop leading and trailing whitespace. -/
def pyStrip (s : String) : String :=
  ⟨((s.data.dropWhile pyWhitespaceChar).reverse.dropWhile pyWhitespaceChar).reverse⟩

/-- Worker for `pySplit`, walking the characters with a fuel counter that
starts above the string length (each step consumes at least one
character, so the fuel never runs out on the initial call). -/
def pySplitAux (sep : List Char) : Nat → List Char → List Char → List (List Char)
  | 0, rest, cur => [cur ++ rest]
  | _ + 1, [], cur => [cur]
  | fuel + 1, c :: rest, cur =>
    if sep.isPrefixOf (c :: rest) then
      cur :: pySplitAux sep fuel (List.drop sep.length (c :: rest)) []
    else
      pySplitAux sep fuel rest (cur ++ [c])

/-- Python `s.split(sep)` for a non-empty separator: leftmost,
non-overlapping matches, keeping empty pieces. -/
def pySplit (s sep : String) : List String :=
  if sep.data.isEmpty then [s]
  else (pySplitAux sep.data (s.data.length + 1) s.data []).map String.mk

/-- Python `sep.join(xs)`. -/
def pyJoin (sep : String) (xs : List String) : String :=
  ⟨List.intercalate sep.data (xs.map String.data)⟩

/-- Python `s.replace(old, new)`: replace every occurrence. -/
def pyReplace (s old new : String) : String :=
  pyJoin new (pySplit s old)

/-- Python `s[:n]`. -/
def pyTake (s : String) (n : Nat) : String :=
  ⟨s.data.take n⟩

/-- Python `s[n:]`. -/
def pyDrop (s : String) (n : Nat) : String :=
  ⟨s.data.drop n⟩

/-- Version gate from `src/utils/versioning.py`, `is_newer_version`:
remote `None` never ingests, stored `None` always ingests, otherwise
ingest iff the stripped markers differ. -/
def is_newer_version (remote : Option String) (stored : Option String) : Bool :=
  match remote with
  | none => false
  | some r =>
    match stored with
    | none => true
    | some l => pyStrip r != pyStrip l

/-- Manifest writer from `src/utils/versioning.py`, `update_manifest`:
given the document that `load_manifest` returned, replace the caller's
own key with a fresh entry and return the document to be written back. -/
def update_manifest (manifest : Manifest) (source_id version update_ts : String)
    (hosts list_of_files : List String) : Manifest :=
  setKey manifest source_id (JVal.obj
    [("version", JVal.str version),
     ("update_ts", JVal.str update_ts),
     ("hosts", JVal.arr hosts),
     ("list_of_files", JVal.arr list_of_files)])

/-- Per-file web manifest writer from `src/utils/versioning.py`,
`update_manifest_latest_version_web_file`: `setdefault` the source-level
entry, then set the file-specific sub-entry with last_updated_ts,
blob_path and the filename's extension list. -/
def update_manifest_latest_version_web_file (manifest : Manifest)
    (source_id filename last_updated_ts blob_path : String) : Manifest :=
  let source_entry :=
    match lookupKey manifest source_id with
    | some e => e
    | none => JVal.obj []
  let parts := pySplit filename "."
  let extensions := if parts.length > 1 then parts.drop 1 else []
  let sub := JVal.obj
    [("last_updated_ts", JVal.str last_updated_ts),
     ("blob_path", JVal.str blob_path),
     ("extensions", JVal.arr extensions)]
  setKey manifest source_id (setField source_entry filename sub)

/-- Blob content, at the granularity the extractor inspects: a gzip
stream carrying some payload bytes, a zip archive with its member list,
or plain bytes.  The first two bytes of a gzip stream are `0x1f 0x8b`
and those of a zip archive are `0x50 0x4b`. -/
inductive Content where
  | gzData (payload : List Nat)
  | zipArchive (members : List (String × Bool × List Nat))
  | rawBytes (bs : List Nat)

/-- A blob container: mapping from blob name to content, with upload
modelled as `setKey` (overwrite) and deletion as `deleteKey`. -/
abbrev Store := List (String × Content)

/-- The gzip magic number checked at `src/scripts/extractor.py` line 124. -/
def gzipMagic : List Nat := [0x1f, 0x8b]

/-- The first two bytes returned by `download_blob(offset=0, length=2)`. -/
def firstTwoBytes : Content → List Nat
  | Content.gzData _ => gzipMagic
  | Content.zipArchive _ => [0x50, 0x4b]
  | Content.rawBytes bs => bs.take 2

/-- Reading a blob as a gzip stream: succeeds exactly on gzip content,
yielding the decompressed payload; anything else raises `BadGzipFile`. -/
def gzipDecode : Content → Except String (List Nat)
  | Content.gzData payload => Except.ok payload
  | _ => Except.error "gzip: not a gzipped file"

/-- Opening a blob as a zip archive: succeeds exactly on zip content,
yielding its member list; anything else raises `BadZipFile`. -/
def zipOpen : Content → Except String (List (String × Bool × List Nat))
  | Content.zipArchive members => Except.ok members
  | _ => Except.error "zipfile: not a zip file"

/-- Python `s.replace(old, new, 1)`: replace the first occurrence only. -/
def replaceFirst (s pat sub : String) : String :=
  match pySplit s pat with
  | [] => s
  | [x] => x
  | x :: y :: rest => x ++ sub ++ pyJoin pat (y :: rest)

/-- Python `s.rsplit(".", 1)[0]`: drop the part after the last dot,
or the whole string when there is no dot. -/
def rsplitBeforeLastDot (s : String) : String :=
  let parts := pySplit s "."
  if parts.length ≤ 1 then s else pyJoin "." parts.dropLast

/-- Rotation from `src/utils/versioning.py`, `update_latest_folder`:
list the blobs whose names start with `raw/{source_id}/latest/{version}`
(note: the listing prefix includes the new version), then for each one
whose fourth path segment differs from the new version, server-side copy
it to `raw/{source_id}/releases/{segment}/{relative}` and delete it. -/
def update_latest_folder (source_id : String) (store : Store) (version : String) : Store :=
  let latestPref := "raw/" ++ source_id ++ "/latest/" ++ version
  let blobs := (store.map Prod.fst).filter (fun n => pyStartsWith n latestPref)
  blobs.foldl (fun st name =>
    let parts := pySplit name "/"
    if parts.length < 5 then st
    else
      let blob_version := parts.getD 3 ""
      if blob_version = version then st
      else
        let relative_path := pyJoin "/" (parts.drop 4)
        let release_blob_name :=
          "raw/" ++ source_id ++ "/releases/" ++ blob_version ++ "/" ++ relative_path
        match lookupKey st name with
        | none => st
        | some c => deleteKey (setKey st release_blob_name c) name) store

/-- The status polling loop of `copy_blob_within_container`: consume the
sequence of copy statuses the destination blob reports, skipping every
`pending` observation; `none` means the loop never sees a terminal
status (it would spin forever). -/
def pollUntilNotPending : List String → Option String
  | [] => none
  | s :: rest => if s = "pending" then pollUntilNotPending rest else some s

/-- Server-side copy from `src/utils/data.py`, `copy_blob_within_container`:
start the copy, poll the destination until the status leaves `pending`,
raise unless the terminal status is `success`, and delete the source only
after success.  The partially-copied destination of an aborted copy is
not modelled; only the fate of the source object matters here. -/
def copy_blob_within_container (store : Store) (source_name destination_name : String)
    (statuses : List String) : Option (Store × Except String Unit) :=
  match lookupKey store source_name with
  | none => some (store, Except.error ("source blob not found: " ++ source_name))
  | some c =>
    match pollUntilNotPending statuses with
    | none => none
    | some s =>
      if s = "success" then
        some (deleteKey (setKey store destination_name c) source_name, Except.ok ())
      else
        some (store, Except.error ("Copy from " ++ source_name ++ " to " ++
          destination_name ++ " failed with status " ++ s))

/-- From `src/scripts/extractor.py`, `archive_root_from_blob_path`:
reject paths outside `raw/`, swap the first `raw/` for `extracted/` and
drop the archive extension after the last dot. -/
def archive_root_from_blob_path (blob_path : String) : Except String String :=
  if pyStartsWith blob_path "raw/" then
    Except.ok (rsplitBeforeLastDot (replaceFirst blob_path "raw/" "extracted/"))
  else
    Except.error ("Unexpected blob path: " ++ blob_path)

/-- From `src/scripts/extractor.py`, `stream_gzip_decompression`:
download the raw blob, decompress it as gzip and upload the payload to
the destination path. -/
def stream_gzip_decompression (store : Store) (raw_path dest_path : String) :
    Except String Store :=
  match lookupKey store raw_path with
  | none => Except.error ("blob not found: " ++ raw_path)
  | some c =>
    match gzipDecode c with
    | Except.error e => Except.error e
    | Except.ok payload => Except.ok (setKey store dest_path (Content.rawBytes payload))

/-- The member loop of `stream_zip_extraction`: skip directory members,
upload every other member under `archive_root/{member filename}` and
record the destination path, in member order. -/
def zipMemberFold (archive_root : String) :
    Store × List String → List (String × Bool × List Nat) → Store × List String
  | acc, [] => acc
  | acc, member :: rest =>
    if member.2.1 then zipMemberFold archive_root acc rest
    else
      let dest_path := archive_root ++ "/" ++ member.1
      zipMemberFold archive_root
        (setKey acc.1 dest_path (Content.rawBytes member.2.2), acc.2 ++ [dest_path]) rest

/-- From `src/scripts/extractor.py`, `stream_zip_extraction`: compute the
archive root, download the whole blob, open it as a zip archive and write
one object per non-directory member, preserving the member path. -/
def stream_zip_extraction (store : Store) (raw_path : String) :
    Except String (Store × List String) :=
  match archive_root_from_blob_path raw_path with
  | Except.error e => Except.error e
  | Except.ok archive_root =>
    match lookupKey store raw_path with
    | none => Except.error ("blob not found: " ++ raw_path)
    | some c =>
      match zipOpen c with
      | Except.error e => Except.error e
      | Except.ok members => Except.ok (zipMemberFold archive_root (store, []) members)

/-- One iteration of the per-file loop in `extract`
(`src/scripts/extractor.py` lines 109-139): dispatch on the lowercased
file name, sniff the two magic bytes for `.zip` files, and return the
updated store plus the extracted paths this file contributed. -/
def processOne (store : Store) (file_path : String) : Except String (Store × List String) :=
  let lower := pyLower file_path
  if pyEndsWith lower ".gz" && !pyEndsWith lower ".tar.gz" then
    let dest := pyReplace (pyReplace (replaceFirst file_path "raw/" "extracted/") ".gz" "") ".GZ" ""
    match stream_gzip_decompression store file_path dest with
    | Except.error e => Except.error e
    | Except.ok store' => Except.ok (store', [dest])
  else if pyEndsWith lower ".zip" then
    match lookupKey store file_path with
    | none => Except.error ("blob not found: " ++ file_path)
    | some c =>
      if firstTwoBytes c = gzipMagic then
        let dest := pyReplace (replaceFirst file_path "raw/" "extracted/") ".zip" ""
        match stream_gzip_decompression store file_path dest with
        | Except.error e => Except.error e
        | Except.ok store' => Except.ok (store', [dest])
      else
        stream_zip_extraction store file_path
  else
    let dest := replaceFirst file_path "raw/" "extracted/"
    match lookupKey store file_path with
    | none => Except.error ("blob not found: " ++ file_path)
    | some c => Except.ok (setKey store dest c, [dest])

/-- The whole per-file loop of `extract`, accumulating `all_extracted`;
the first failing file aborts the loop, keeping the store as the failing
iteration left it (earlier extracted objects stay uploaded). -/
def processFilesAux : Store → List String → List String → Store × Except String (List String)
  | store, [], acc => (store, Except.ok acc)
  | store, fp :: rest, acc =>
    match processOne store fp with
    | Except.error e => (store, Except.error e)
    | Except.ok (store', paths) => processFilesAux store' rest (acc ++ paths)

/-- The per-file loop of `extract` started with an empty accumulator. -/
def processFiles (store : Store) (files : List String) : Store × Except String (List String) :=
  processFilesAux store files []

/-- Result of one run of the extraction stage: final container state,
final manifest document, how many times the manifest blob was uploaded,
and the process exit code (`1` exactly when `sys.exit(1)` ran). -/
structure ExtractResult where
  store : Store
  manifest : Manifest
  manifestWrites : Nat
  exitCode : Nat

/-- From `src/scripts/extractor.py`, `extract`: load the manifest, bail
out (successfully) when the entry or its file list is missing or empty,
process every file, and only if the whole loop succeeds set `extracted`
and `extracted_list_of_files` and upload the manifest once; any failure
leaves the manifest untouched and exits with code 1. -/
def extract (source_id : String) (manifest : Manifest) (store : Store) : ExtractResult :=
  match lookupKey manifest source_id with
  | none => ⟨store, manifest, 0, 0⟩
  | some entry =>
    match getField entry "list_of_files" with
    | some (JVal.arr (f :: fs)) =>
      match processFiles store (f :: fs) with
      | (store', Except.error _) => ⟨store', manifest, 0, 1⟩
      | (store', Except.ok all_extracted) =>
        ⟨store',
         setKey manifest source_id
           (setField (setField entry "extracted" (JVal.bool true))
             "extracted_list_of_files" (JVal.arr all_extracted)),
         1, 0⟩
    | _ => ⟨store, manifest, 0, 0⟩

/-- Result of one FTP connection attempt, as classified by the `except`
clause of `connect_ftp`: success, one of the caught transient errors
(ConnectionResetError, socket.timeout, ftplib.error_temp), or any other
exception, which is not caught and propagates at once. -/
inductive FtpAttempt where
  | ok
  | transient
  | other
deriving DecidableEq

/-- How a `connect_ftp` call ends. -/
inductive ConnectOutcome where
  | connected
  | exhausted
  | uncaught
deriving DecidableEq

/-- Observable result of `connect_ftp`: how it ended, how many attempts
ran, and the sleep durations in order. -/
structure ConnectResult where
  outcome : ConnectOutcome
  attempts : Nat
  sleeps : List ℚ
deriving DecidableEq

/-- The attempt loop of `connect_ftp` (`src/scripts/ftp.py` lines 52-75)
over the remaining attempt numbers: a transient failure at attempt `a`
sleeps `base_delay * 2 ^ (a - 1) + jitter a` (the jitter argument models
`random.uniform(0, 1)`) and retries; when the numbers run out the final
`RuntimeError` is raised. -/
def connect_ftp_go (attempt_result : Nat → FtpAttempt) (jitter : Nat → ℚ) (base_delay : ℚ) :
    List Nat → Nat → List ℚ → ConnectResult
  | [], made, sleeps => ⟨ConnectOutcome.exhausted, made, sleeps⟩
  | a :: rest, made, sleeps =>
    match attempt_result a with
    | FtpAttempt.ok => ⟨ConnectOutcome.connected, made + 1, sleeps⟩
    | FtpAttempt.other => ⟨ConnectOutcome.uncaught, made + 1, sleeps⟩
    | FtpAttempt.transient =>
      connect_ftp_go attempt_result jitter base_delay rest (made + 1)
        (sleeps ++ [base_delay * 2 ^ (a - 1) + jitter a])

/-- From `src/scripts/ftp.py`, `connect_ftp`, with attempts numbered
`range(1, retries + 1)` as in the source. -/
def connect_ftp (attempt_result : Nat → FtpAttempt) (jitter : Nat → ℚ)
    (retries : Nat) (base_delay : ℚ) : ConnectResult :=
  connect_ftp_go attempt_result jitter base_delay (List.range' 1 retries) 0 []

/-- A `connect_ftp` call that keeps the source defaults
`retries = 5`, `base_delay = 2.0`. -/
def connect_ftp_with_defaults (attempt_result : Nat → FtpAttempt) (jitter : Nat → ℚ) :
    ConnectResult :=
  connect_ftp attempt_result jitter 5 2

/-- The externally visible steps of one ingestion run, at the
granularity the rotation/manifest ordering claims speak about. -/
inductive Event where
  | upload (blobName : String)
  | updateManifest (version : String) (files : List String)
  | rotate (version : String)
  | extractStage
deriving DecidableEq

/-- Result of one ingestion script run: the ordered event trace and the
exit code when the script called `sys.exit` (`none` for a plain return). -/
structure RunResult where
  events : List Event
  exitCode : Option Nat
deriving DecidableEq

/-- Recognizer for rotation events. -/
def isRotateEvent : Event → Bool
  | Event.rotate _ => true
  | _ => false

/-- Recognizer for manifest-write events. -/
def isManifestEvent : Event → Bool
  | Event.updateManifest _ _ => true
  | _ => false

/-- The ordering the rotation claim asserts: a rotation event occurs and
strictly precedes the first manifest-write event. -/
def rotateBeforeManifest (evs : List Event) : Bool :=
  match evs.findIdx? isRotateEvent, evs.findIdx? isManifestEvent with
  | some i, some j => i < j
  | _, _ => false

/-- A trace shape in which every upload comes first and, when the run
commits at all, it then writes the manifest once, rotates once and runs
extraction, in that order. -/
def orderedRun (evs : List Event) : Prop :=
  ∃ ups version files,
    (∀ e ∈ ups, ∃ n, e = Event.upload n) ∧
    (evs = ups ∨
      evs = ups ++ [Event.updateManifest version files, Event.rotate version, Event.extractStage])

/-- One remote FTP file, as the per-file loop of `run_ftp_source` sees
it: its name and the result of `get_ftp_last_modified` (a
`YYYYMMDDHHMMSS` string, or `None` when the MDTM probe failed). -/
structure FtpFile where
  name : String
  mdtm : Option String
deriving DecidableEq

/-- The version derived at `src/scripts/ftp.py` lines 241-243:
`strptime(ts, "%Y%m%d%H%M%S").strftime("%Y-%m-%d")` for a valid
14-digit timestamp. -/
def mdtmToVersion (ts : String) : String :=
  pyTake ts 4 ++ "-" ++ pyTake (pyDrop ts 4) 2 ++ "-" ++ pyTake (pyDrop ts 6) 2

/-- The blob name built for an FTP upload at lines 252-255. -/
def ftpBlobName (source_id rootPref version filename : String) : String :=
  "raw/" ++ source_id ++ "/latest/" ++ version ++ "/" ++ rootPref ++ filename

/-- Host configuration slice relevant to the per-file loop: the
normalized `root` prefix and the matching files of this host. -/
structure HostCfg where
  rootPref : String
  files : List FtpFile
deriving DecidableEq

/-- The per-file loop of `run_ftp_source` (lines 235-265): skip files
without a last-modified time, record the detected version, re-read the
stored version from the manifest and gate each file; the first file that
is not newer exits the whole process with code 0, otherwise the file is
uploaded and its blob path recorded. -/
def runFtpFileLoop (source_id : String) (stored : Option String) (rootPref : String) :
    List FtpFile → List String → List String → List String × List String × Bool
  | [], paths, versions => (paths, versions, false)
  | f :: rest, paths, versions =>
    match f.mdtm with
    | none => runFtpFileLoop source_id stored rootPref rest paths versions
    | some ts =>
      let version := mdtmToVersion ts
      let versions' := versions ++ [version]
      if is_newer_version (some version) stored then
        runFtpFileLoop source_id stored rootPref rest
          (paths ++ [ftpBlobName source_id rootPref version f.name]) versions'
      else
        (paths, versions', true)

/-- The per-host loop of `run_ftp_source`: run the file loop for every
host configuration, stopping the whole run as soon as one file exits. -/
def runFtpHosts (source_id : String) (stored : Option String) :
    List HostCfg → List String → List String → List String × List String × Bool
  | [], paths, versions => (paths, versions, false)
  | h :: rest, paths, versions =>
    match runFtpFileLoop source_id stored h.rootPref h.files paths versions with
    | (paths', versions', true) => (paths', versions', true)
    | (paths', versions', false) => runFtpHosts source_id stored rest paths' versions'

/-- From `src/scripts/ftp.py`, `run_ftp_source`: run the per-host loops
(each upload becomes an event); a mid-loop gate failure is `sys.exit(0)`.
Otherwise, when no version was detected the run returns quietly, and when
one was, `sorted(detected_versions)[-1]` (the maximum) is committed:
`update_manifest`, then `update_latest_folder`, then `extract`. -/
def run_ftp_source (source_id : String) (stored : Option String) (hosts : List HostCfg) :
    RunResult :=
  match runFtpHosts source_id stored hosts [] [] with
  | (paths, _, true) => ⟨paths.map Event.upload, some 0⟩
  | (paths, [], false) => ⟨paths.map Event.upload, none⟩
  | (paths, v :: vs, false) =>
    let version := vs.foldl max v
    ⟨paths.map Event.upload ++
      [Event.updateManifest version paths, Event.rotate version, Event.extractStage], none⟩

/-- From `src/scripts/web.py`, `main`, after the version was resolved:
gate (exit 0 when not newer), download every matched file of every page
under `raw/{id}/latest/{version}/`, return quietly when nothing was
downloaded, else `update_manifest`, then `update_latest_folder`, then
`extract`. -/
def web_main (source_id version : String) (stored : Option String) (files : List String) :
    RunResult :=
  if is_newer_version (some version) stored then
    let blobs := files.map (fun fn => "raw/" ++ source_id ++ "/latest/" ++ version ++ "/" ++ fn)
    match blobs with
    | [] => ⟨[], none⟩
    | _ => ⟨blobs.map Event.upload ++
        [Event.updateManifest version blobs, Event.rotate version, Event.extractStage], none⟩
  else
    ⟨[], some 0⟩

/-- From `src/scripts/api.py`, `run_ingestion`, after the version was
resolved: gate (exit 0 when not newer), download one blob per non-probe
operation under `raw/{id}/latest/{version}/`, then `update_manifest`,
then `update_latest_folder`, then `extract` (with no emptiness check). -/
def run_ingestion (source_id version : String) (stored : Option String)
    (opFilenames : List String) : RunResult :=
  if is_newer_version (some version) stored then
    let blobs :=
      opFilenames.map (fun fn => "raw/" ++ source_id ++ "/latest/" ++ version ++ "/" ++ fn)
    ⟨blobs.map Event.upload ++
      [Event.updateManifest version blobs, Event.rotate version, Event.extractStage], none⟩
  else
    ⟨[], some 0⟩

/-- Container state used to exhibit the rotation gap: one object of an
old version and one of the new version, both under `latest/`. -/
def rotationCexStore : Store :=
  [("raw/acme/latest/2023-05-01/b.txt", Content.rawBytes [1]),
   ("raw/acme/latest/2024-01-01/a.txt", Content.rawBytes [2])]

/-- A manifest whose `acme` entry lists one gzip blob. -/
def gzManifest : Manifest :=
  [("acme", JVal.obj
    [("version", JVal.str "2024-01-01"),
     ("update_ts", JVal.str "20240101_00:00:00"),
     ("hosts", JVal.arr ["ftp.acme.org"]),
     ("list_of_files", JVal.arr ["raw/acme/latest/2024-01-01/a.gz"])])]

/-- A store where the listed blob is a well-formed gzip stream. -/
def gzStoreOk : Store := [("raw/acme/latest/2024-01-01/a.gz", Content.gzData [1, 2, 3])]

/-- A store where the listed blob is not a gzip stream, so its
extraction fails. -/
def gzStoreBad : Store := [("raw/acme/latest/2024-01-01/a.gz", Content.rawBytes [0])]

/-- A `.zip`-named blob that is really a gzip stream (magic `1f 8b`). -/
def zipStoreMisnamed : Store := [("raw/s/latest/v1/data.zip", Content.gzData [7])]

/-- Members of a demonstration zip archive: one directory entry and two
file entries. -/
def zipMembersDemo : List (String × Bool × List Nat) :=
  [("d/", true, []), ("d/f.txt", false, [1]), ("g.txt", false, [2])]

/-- A genuine zip archive blob. -/
def zipStoreGenuine : Store :=
  [("raw/s/latest/v1/arch.zip", Content.zipArchive zipMembersDemo)]

/-- A store holding the source object of a server-side copy. -/
def copyDemoStore : Store := [("raw/s/latest/v1/x.txt", Content.rawBytes [5])]

theorem lookupKey_setKey_self {α : Type} (m : List (String × α)) (k : String) (v : α) :
    lookupKey (setKey m k v) k = some v := by
  induction m with
  | nil => simp [setKey, lookupKey]
  | cons p rest ih =>
    by_cases h : p.1 = k
    · simp [setKey, h, lookupKey]
    · simp [setKey, h, lookupKey, ih]

theorem lookupKey_setKey_ne {α : Type} (m : List (String × α)) (k k' : String) (v : α)
    (h : k' ≠ k) : lookupKey (setKey m k v) k' = lookupKey m k' := by
  induction m with
  | nil => simp [setKey, lookupKey, Ne.symm h]
  | cons p rest ih =>
    by_cases hp : p.1 = k
    · simp [setKey, hp, lookupKey, Ne.symm h]
    · by_cases hq : p.1 = k'
      · simp [setKey, hp, lookupKey, hq, h]
      · simp [setKey, hp, lookupKey, hq, ih]

theorem lookupKey_deleteKey_self {α : Type} (m : List (String × α)) (k : String) :
    lookupKey (deleteKey m k) k = none := by
  induction m with
  | nil => rfl
  | cons p rest ih =>
    simp only [deleteKey, List.filter_cons] at ih ⊢
    by_cases hp : p.1 = k
    · simpa [hp] using ih
    · simpa [hp, bne_iff_ne, lookupKey] using ih

theorem lookupKey_setKey_pres {α : Type} (m : List (String × α)) (k p : String) (v : α)
    (h : ∃ d, lookupKey m p = some d) : ∃ d, lookupKey (setKey m k v) p = some d := by
  by_cases hp : p = k
  · exact ⟨v, hp ▸ lookupKey_setKey_self m k v⟩
  · rw [lookupKey_setKey_ne m k p v hp]
    exact h

/-- C1: the version gate `is_newer_version` fails closed on a missing
remote marker, always ingests on a missing stored marker, and otherwise
ingests exactly when the whitespace-stripped markers differ — a pure,
symmetric inequality test, so even a rollback to an older date counts
as newer. -/
theorem version_gate_pure_inequality :
    (∀ stored : Option String, is_newer_version none stored = false) ∧
    (∀ r : String, is_newer_version (some r) none = true) ∧
    (∀ r l : String, is_newer_version (some r) (some l) = !(pyStrip r == pyStrip l)) ∧
    (∀ r l : String,
      is_newer_version (some r) (some l) = is_newer_version (some l) (some r)) ∧
    is_newer_version (some "2023-01-01") (some "2024-01-01") = true := by
  refine ⟨fun _ => rfl, fun _ => rfl, fun _ _ => rfl, fun r l => ?_, by decide⟩
  show (pyStrip r != pyStrip l) = (pyStrip l != pyStrip r)
  by_cases h : pyStrip r = pyStrip l
  · rw [h]
  · have h1 : (pyStrip r != pyStrip l) = true := by simp [bne_iff_ne, h]
    have h2 : (pyStrip l != pyStrip r) = true := by simp [bne_iff_ne, Ne.symm h]
    rw [h1, h2]

/-- C2: evaluation of `update_latest_folder` on a container holding an
old-version object `raw/acme/latest/2023-05-01/b.txt` and a new-version
object, promoting to `2024-01-01`.  Because the listing prefix already
contains the new version, the old object is never enumerated: the store
is returned unchanged, the old object is still under `latest/`, and
nothing was copied to `releases/` — contradicting the function's own
docstring and the rotation-completeness property. -/
theorem update_latest_folder_misses_old_versions :
    update_latest_folder "acme" rotationCexStore "2024-01-01" = rotationCexStore ∧
    lookupKey (update_latest_folder "acme" rotationCexStore "2024-01-01")
      "raw/acme/latest/2023-05-01/b.txt" = some (Content.rawBytes [1]) ∧
    lookupKey (update_latest_folder "acme" rotationCexStore "2024-01-01")
      "raw/acme/releases/2023-05-01/b.txt" = none :=
  ⟨rfl, rfl, rfl⟩

/-- C9: `update_manifest` is read-merge-write: it replaces only the
caller's own key, so every other source's entry in the written document
equals its entry in the document that was read. -/
theorem update_manifest_preserves_other_sources :
    ∀ (m : Manifest) (source_id version update_ts : String)
      (hosts list_of_files : List String) (s' : String),
      s' ≠ source_id →
      lookupKey (update_manifest m source_id version update_ts hosts list_of_files) s' =
        lookupKey m s' := by
  intro m sid v ts hosts files s' h
  exact lookupKey_setKey_ne m sid s' _ h

/-- Witness for C9 at a concrete prior document: the entry of the
untouched source `other` survives an update of `acme` unchanged. -/
theorem update_manifest_preserves_other_sources_witness :
    lookupKey (update_manifest [("other", JVal.str "x")] "acme" "2024-01-01"
      "20240101_00:00:00" ["h"] ["f"]) "other" =
      lookupKey [("other", JVal.str "x")] "other" :=
  update_manifest_preserves_other_sources [("other", JVal.str "x")] "acme" "2024-01-01"
    "20240101_00:00:00" ["h"] ["f"] "other" (by decide)

theorem mem_map_upload (paths : List String) :
    ∀ e ∈ paths.map Event.upload, ∃ n, e = Event.upload n := by
  intro e he
  rcases List.mem_map.mp he with ⟨n, _, rfl⟩
  exact ⟨n, rfl⟩

/-- C3 counterexample: a concrete successful web run downloads
`a.txt`, then writes the manifest, then rotates, then extracts — so the
claimed order (rotation strictly before the manifest write) is false on
this run. -/
theorem rotation_before_manifest_fails_cex :
    (web_main "acme" "2024-01-01" none ["a.txt"]).events =
      [Event.upload "raw/acme/latest/2024-01-01/a.txt",
       Event.updateManifest "2024-01-01" ["raw/acme/latest/2024-01-01/a.txt"],
       Event.rotate "2024-01-01", Event.extractStage] ∧
    rotateBeforeManifest (web_main "acme" "2024-01-01" none ["a.txt"]).events = false :=
  ⟨rfl, rfl⟩

/-- C3 (amended): in every run of the three ingestion scripts, all
uploads come first and, whenever the run commits, it then writes the
manifest once, rotates once and runs extraction, in exactly that
order — the manifest write precedes the rotation. -/
theorem manifest_write_precedes_rotation :
    (∀ (source_id : String) (stored : Option String) (hosts : List HostCfg),
      orderedRun (run_ftp_source source_id stored hosts).events) ∧
    (∀ (source_id version : String) (stored : Option String) (files : List String),
      orderedRun (web_main source_id version stored files).events) ∧
    (∀ (source_id version : String) (stored : Option String) (ops : List String),
      orderedRun (run_ingestion source_id version stored ops).events) := by
  refine ⟨?_, ?_, ?_⟩
  · intro sid stored hosts
    rcases h : runFtpHosts sid stored hosts [] [] with ⟨paths, versions, exited⟩
    cases exited with
    | true =>
      refine ⟨paths.map Event.upload, "", [], mem_map_upload paths, Or.inl ?_⟩
      simp [run_ftp_source, h]
    | false =>
      cases versions with
      | nil =>
        refine ⟨paths.map Event.upload, "", [], mem_map_upload paths, Or.inl ?_⟩
        simp [run_ftp_source, h]
      | cons v vs =>
        refine ⟨paths.map Event.upload, vs.foldl max v, paths, mem_map_upload paths, Or.inr ?_⟩
        simp [run_ftp_source, h]
  · intro sid version stored files
    by_cases hg : is_newer_version (some version) stored = true
    · cases files with
      | nil =>
        refine ⟨[], "", [], by simp, Or.inl ?_⟩
        simp [web_main, hg]
      | cons f fs =>
        refine ⟨((f :: fs).map
            (fun fn => "raw/" ++ sid ++ "/latest/" ++ version ++ "/" ++ fn)).map Event.upload,
          version,
          (f :: fs).map (fun fn => "raw/" ++ sid ++ "/latest/" ++ version ++ "/" ++ fn),
          mem_map_upload _, Or.inr ?_⟩
        simp [web_main, hg]
    · refine ⟨[], "", [], by simp, Or.inl ?_⟩
      simp [web_main, hg]
  · intro sid version stored ops
    by_cases hg : is_newer_version (some version) stored = true
    · refine ⟨(ops.map
          (fun fn => "raw/" ++ sid ++ "/latest/" ++ version ++ "/" ++ fn)).map Event.upload,
        version,
        ops.map (fun fn => "raw/" ++ sid ++ "/latest/" ++ version ++ "/" ++ fn),
        mem_map_upload _, Or.inr ?_⟩
      simp [run_ingestion, hg]
    · refine ⟨[], "", [], by simp, Or.inl ?_⟩
      simp [run_ingestion, hg]

/-- C6: the server-side copy primitive polls past every `pending`
status; it deletes the source only when the terminal status is
`success`, and on any other terminal status it raises and leaves the
source object in place. -/
theorem copy_blob_deletes_source_only_after_success :
    ∀ (store : Store) (src dst : String) (c : Content) (statuses : List String),
      lookupKey store src = some c →
      (copy_blob_within_container store src dst ("pending" :: statuses) =
        copy_blob_within_container store src dst statuses) ∧
      (pollUntilNotPending statuses = some "success" →
        copy_blob_within_container store src dst statuses =
          some (deleteKey (setKey store dst c) src, Except.ok ()) ∧
        lookupKey (deleteKey (setKey store dst c) src) src = none) ∧
      (∀ s, pollUntilNotPending statuses = some s → s ≠ "success" →
        copy_blob_within_container store src dst statuses =
          some (store, Except.error ("Copy from " ++ src ++ " to " ++ dst ++
            " failed with status " ++ s)) ∧
        lookupKey store src = some c) := by
  intro store src dst c statuses hsrc
  refine ⟨?_, ?_, ?_⟩
  · simp [copy_blob_within_container, hsrc, pollUntilNotPending]
  · intro hp
    refine ⟨?_, lookupKey_deleteKey_self _ _⟩
    simp [copy_blob_within_container, hsrc, hp]
  · intro s hp hs
    refine ⟨?_, hsrc⟩
    simp [copy_blob_within_container, hsrc, hp, hs]

/-- Witness for C6: a copy that reports `pending` then `success` deletes
the source; one that reports `pending` then `failed` raises and leaves
the source in place. -/
theorem copy_blob_deletes_source_only_after_success_witness :
    (copy_blob_within_container copyDemoStore "raw/s/latest/v1/x.txt" "raw/s/releases/v1/x.txt"
        ["pending", "success"] =
      some (deleteKey (setKey copyDemoStore "raw/s/releases/v1/x.txt" (Content.rawBytes [5]))
        "raw/s/latest/v1/x.txt", Except.ok ()) ∧
     lookupKey (deleteKey (setKey copyDemoStore "raw/s/releases/v1/x.txt" (Content.rawBytes [5]))
        "raw/s/latest/v1/x.txt") "raw/s/latest/v1/x.txt" = none) ∧
    (copy_blob_within_container copyDemoStore "raw/s/latest/v1/x.txt" "raw/s/releases/v1/x.txt"
        ["pending", "failed"] =
      some (copyDemoStore, Except.error
        "Copy from raw/s/latest/v1/x.txt to raw/s/releases/v1/x.txt failed with status failed") ∧
     lookupKey copyDemoStore "raw/s/latest/v1/x.txt" = some (Content.rawBytes [5])) := by
  constructor
  · exact (copy_blob_deletes_source_only_after_success copyDemoStore
      "raw/s/latest/v1/x.txt" "raw/s/releases/v1/x.txt" (Content.rawBytes [5])
      ["pending", "success"] rfl).2.1 rfl
  · exact (copy_blob_deletes_source_only_after_success copyDemoStore
      "raw/s/latest/v1/x.txt" "raw/s/releases/v1/x.txt" (Content.rawBytes [5])
      ["pending", "failed"] rfl).2.2 "failed" rfl (by decide)

theorem connect_ftp_go_all_transient
    (res : Nat → FtpAttempt) (jitter : Nat → ℚ) (base_delay : ℚ)
    (h : ∀ a, res a = FtpAttempt.transient) :
    ∀ (n s made : Nat) (sleeps : List ℚ),
      connect_ftp_go res jitter base_delay (List.range' s n) made sleeps =
        ⟨ConnectOutcome.exhausted, made + n,
         sleeps ++ (List.range' s n).map (fun a => base_delay * 2 ^ (a - 1) + jitter a)⟩ := by
  intro n
  induction n with
  | zero => intro s made sleeps; simp [connect_ftp_go]
  | succ k ih =>
    intro s made sleeps
    rw [List.range'_succ]
    simp only [connect_ftp_go, h s, List.map_cons]
    rw [ih (s + 1) (made + 1) (sleeps ++ [base_delay * 2 ^ (s - 1) + jitter s])]
    simp only [ConnectResult.mk.injEq]
    refine ⟨trivial, by omega, by simp⟩

/-- C8: when every attempt hits a transient error, `connect_ftp` makes
exactly `retries` attempts (5 with the source defaults), sleeps
`base_delay * 2 ^ (attempt - 1) + jitter` before each retry — the delay
doubling per attempt — and then raises; a first-attempt success or a
non-transient exception ends the loop immediately with one attempt and
no sleeps, so only transient errors are retried. -/
theorem connect_ftp_retry_backoff :
    ∀ (res : Nat → FtpAttempt) (jitter : Nat → ℚ) (retries : Nat) (base_delay : ℚ),
      (∀ a, res a = FtpAttempt.transient) →
      connect_ftp res jitter retries base_delay =
        ⟨ConnectOutcome.exhausted, retries,
         (List.range' 1 retries).map (fun a => base_delay * 2 ^ (a - 1) + jitter a)⟩ ∧
      connect_ftp_with_defaults res jitter =
        ⟨ConnectOutcome.exhausted, 5,
         (List.range' 1 5).map (fun a => 2 * 2 ^ (a - 1) + jitter a)⟩ ∧
      (∀ res2 : Nat → FtpAttempt, res2 1 = FtpAttempt.ok →
        connect_ftp res2 jitter (retries + 1) base_delay =
          ⟨ConnectOutcome.connected, 1, []⟩) ∧
      (∀ res3 : Nat → FtpAttempt, res3 1 = FtpAttempt.other →
        connect_ftp res3 jitter (retries + 1) base_delay =
          ⟨ConnectOutcome.uncaught, 1, []⟩) := by
  intro res jitter retries base h
  refine ⟨?_, ?_, ?_, ?_⟩
  · simpa [connect_ftp] using connect_ftp_go_all_transient res jitter base h retries 1 0 []
  · simpa [connect_ftp_with_defaults, connect_ftp] using
      connect_ftp_go_all_transient res jitter 2 h 5 1 0 []
  · intro res2 h2
    rw [connect_ftp, List.range'_succ]
    simp [connect_ftp_go, h2]
  · intro res3 h3
    rw [connect_ftp, List.range'_succ]
    simp [connect_ftp_go, h3]

/-- Witness for C8: three all-transient attempts with zero jitter give
the exhausted outcome with the doubling sleeps, and an immediately
successful attempt connects after one attempt and no sleep. -/
theorem connect_ftp_retry_backoff_witness :
    connect_ftp (fun _ => FtpAttempt.transient) (fun _ => 0) 3 2 =
      ⟨ConnectOutcome.exhausted, 3,
       (List.range' 1 3).map (fun a => 2 * 2 ^ (a - 1) + (fun _ => (0 : ℚ)) a)⟩ ∧
    connect_ftp (fun _ => FtpAttempt.ok) (fun _ => 0) 4 2 =
      ⟨ConnectOutcome.connected, 1, []⟩ := by
  constructor
  · exact (connect_ftp_retry_backoff (fun _ => FtpAttempt.transient) (fun _ => 0) 3 2
      (fun _ => rfl)).1
  · exact (connect_ftp_retry_backoff (fun _ => FtpAttempt.transient) (fun _ => 0) 3 2
      (fun _ => rfl)).2.2.1 (fun _ => FtpAttempt.ok) rfl

theorem runFtpFileLoop_gate_exit
    (source_id : String) (stored : Option String) (root : String)
    (f : FtpFile) (post : List FtpFile) (ts : String)
    (hf : f.mdtm = some ts)
    (hg : is_newer_version (some (mdtmToVersion ts)) stored = false) :
    ∀ (pre : List FtpFile),
      (∀ g ∈ pre, g.mdtm = none ∨ ∃ u, g.mdtm = some u ∧
        is_newer_version (some (mdtmToVersion u)) stored = true) →
      ∀ (paths versions : List String),
      ∃ versions',
        runFtpFileLoop source_id stored root (pre ++ f :: post) paths versions =
          (paths ++ pre.filterMap (fun g => g.mdtm.map
            (fun u => ftpBlobName source_id root (mdtmToVersion u) g.name)), versions', true) := by
  intro pre
  induction pre with
  | nil =>
    intro _ paths versions
    refine ⟨versions ++ [mdtmToVersion ts], ?_⟩
    simp [runFtpFileLoop, hf, hg]
  | cons g rest ih =>
    intro hpre paths versions
    rcases hpre g (List.mem_cons_self g rest) with hnone | ⟨u, hu, hgate⟩
    · rcases ih (fun x hx => hpre x (List.mem_cons_of_mem g hx)) paths versions with
        ⟨versions', hv⟩
      refine ⟨versions', ?_⟩
      simpa [runFtpFileLoop, hnone, List.filterMap_cons] using hv
    · rcases ih (fun x hx => hpre x (List.mem_cons_of_mem g hx))
        (paths ++ [ftpBlobName source_id root (mdtmToVersion u) g.name])
        (versions ++ [mdtmToVersion u]) with ⟨versions', hv⟩
      refine ⟨versions', ?_⟩
      simp only [List.cons_append, runFtpFileLoop, hu, hgate, if_true, List.append_eq]
      rw [hv]
      simp [List.filterMap_cons, hu, List.append_assoc]

/-- C10: in `run_ftp_source` the gate is re-evaluated once per matching
file; when every earlier file passed the gate (or was skipped for
lacking a last-modified time) and the current file resolves to a
version that is not newer than the stored one, the process exits
immediately with code 0: the trace contains only the uploads already
performed, with no manifest write, no rotation and no extraction. -/
theorem ftp_gate_reevaluated_midloop_exit :
    ∀ (source_id : String) (stored : Option String) (root : String)
      (pre post : List FtpFile) (f : FtpFile) (ts : String),
      (∀ g ∈ pre, g.mdtm = none ∨ ∃ u, g.mdtm = some u ∧
        is_newer_version (some (mdtmToVersion u)) stored = true) →
      f.mdtm = some ts →
      is_newer_version (some (mdtmToVersion ts)) stored = false →
      (run_ftp_source source_id stored [⟨root, pre ++ f :: post⟩]).exitCode = some 0 ∧
      (run_ftp_source source_id stored [⟨root, pre ++ f :: post⟩]).events =
        (pre.filterMap (fun g => g.mdtm.map
          (fun u => ftpBlobName source_id root (mdtmToVersion u) g.name))).map Event.upload ∧
      ∀ e ∈ (run_ftp_source source_id stored [⟨root, pre ++ f :: post⟩]).events,
        ∃ n, e = Event.upload n := by
  intro sid stored root pre post f ts hpre hf hg
  rcases runFtpFileLoop_gate_exit sid stored root f post ts hf hg pre hpre [] [] with
    ⟨versions', hv⟩
  have hrun : run_ftp_source sid stored [⟨root, pre ++ f :: post⟩] =
      ⟨(pre.filterMap (fun g => g.mdtm.map
        (fun u => ftpBlobName sid root (mdtmToVersion u) g.name))).map Event.upload, some 0⟩ := by
    simp [run_ftp_source, runFtpHosts, hv]
  rw [hrun]
  exact ⟨rfl, rfl, mem_map_upload _⟩

/-- Witness for C10: with stored version `2024-01-01`, the first file
(modified 2024-03-15) passes the gate and is uploaded; the second file
(modified 2024-01-01) fails the gate, so the run exits with code 0
having produced only the first upload. -/
theorem ftp_gate_reevaluated_midloop_exit_witness :
    (run_ftp_source "acme" (some "2024-01-01")
      [⟨"", [⟨"f1", some "20240315120000"⟩, ⟨"f2", some "20240101093000"⟩]⟩]).exitCode =
      some 0 ∧
    (run_ftp_source "acme" (some "2024-01-01")
      [⟨"", [⟨"f1", some "20240315120000"⟩, ⟨"f2", some "20240101093000"⟩]⟩]).events =
      [Event.upload "raw/acme/latest/2024-03-15/f1"] := by
  have h := ftp_gate_reevaluated_midloop_exit "acme" (some "2024-01-01") ""
    [⟨"f1", some "20240315120000"⟩] [] ⟨"f2", some "20240101093000"⟩ "20240101093000"
    (by
      intro g hg
      have hgeq : g = (⟨"f1", some "20240315120000"⟩ : FtpFile) := List.mem_singleton.mp hg
      subst hgeq
      exact Or.inr ⟨"20240315120000", rfl, by decide⟩)
    rfl (by decide)
  exact ⟨h.1, h.2.1⟩

theorem extract_spec (source_id : String) (m : Manifest) (store : Store) :
    (extract source_id m store = ⟨store, m, 0, 0⟩ ∧
      ∀ entry f fs, lookupKey m source_id = some entry →
        getField entry "list_of_files" ≠ some (JVal.arr (f :: fs)))
  ∨ (∃ entry f fs e store', lookupKey m source_id = some entry ∧
      getField entry "list_of_files" = some (JVal.arr (f :: fs)) ∧
      processFiles store (f :: fs) = (store', Except.error e) ∧
      extract source_id m store = ⟨store', m, 0, 1⟩)
  ∨ (∃ entry f fs ext store', lookupKey m source_id = some entry ∧
      getField entry "list_of_files" = some (JVal.arr (f :: fs)) ∧
      processFiles store (f :: fs) = (store', Except.ok ext) ∧
      extract source_id m store = ⟨store',
        setKey m source_id (setField (setField entry "extracted" (JVal.bool true))
          "extracted_list_of_files" (JVal.arr ext)), 1, 0⟩) := by
  cases hL : lookupKey m source_id with
  | none =>
    left
    refine ⟨by simp [extract, hL], ?_⟩
    intro entry f fs he
    cases he
  | some entry =>
    cases hG : getField entry "list_of_files" with
    | none =>
      left
      refine ⟨by simp [extract, hL, hG], ?_⟩
      intro entry' f fs he
      injection he with he'
      subst he'
      simp [hG]
    | some v =>
      cases v with
      | str s =>
        left
        refine ⟨by simp [extract, hL, hG], ?_⟩
        intro entry' f fs he
        injection he with he'
        subst he'
        simp [hG]
      | bool b =>
        left
        refine ⟨by simp [extract, hL, hG], ?_⟩
        intro entry' f fs he
        injection he with he'
        subst he'
        simp [hG]
      | obj fields =>
        left
        refine ⟨by simp [extract, hL, hG], ?_⟩
        intro entry' f fs he
        injection he with he'
        subst he'
        simp [hG]
      | arr xs =>
        cases xs with
        | nil =>
          left
          refine ⟨by simp [extract, hL, hG], ?_⟩
          intro entry' f fs he
          injection he with he'
          subst he'
          simp [hG]
        | cons f fs =>
          rcases hP : processFiles store (f :: fs) with ⟨store', r⟩
          cases r with
          | error e =>
            right; left
            exact ⟨entry, f, fs, e, store', rfl, hG, hP, by simp [extract, hL, hG, hP]⟩
          | ok ext =>
            right; right
            exact ⟨entry, f, fs, ext, store', rfl, hG, hP, by simp [extract, hL, hG, hP]⟩

/-- C4: extraction is all-or-nothing at the manifest level: the
manifest blob is uploaded at most once per run; an exit code 1 run
leaves the manifest exactly as it was read, with zero manifest writes;
the single write happens only in an exit-0 run in which every listed
file was processed without error, and it sets `extracted` and
`extracted_list_of_files` together in one update; and any failure of
the per-file loop forces exit code 1 with the manifest untouched. -/
theorem extract_all_or_nothing :
    ∀ (source_id : String) (m : Manifest) (store : Store),
      (extract source_id m store).manifestWrites ≤ 1 ∧
      ((extract source_id m store).exitCode = 1 →
        (extract source_id m store).manifestWrites = 0 ∧
        (extract source_id m store).manifest = m) ∧
      ((extract source_id m store).manifestWrites = 1 →
        (extract source_id m store).exitCode = 0 ∧
        ∃ entry f fs ext, lookupKey m source_id = some entry ∧
          getField entry "list_of_files" = some (JVal.arr (f :: fs)) ∧
          processFiles store (f :: fs) = ((extract source_id m store).store, Except.ok ext) ∧
          (extract source_id m store).manifest =
            setKey m source_id (setField (setField entry "extracted" (JVal.bool true))
              "extracted_list_of_files" (JVal.arr ext))) ∧
      (∀ entry f fs e, lookupKey m source_id = some entry →
        getField entry "list_of_files" = some (JVal.arr (f :: fs)) →
        (processFiles store (f :: fs)).2 = Except.error e →
        (extract source_id m store).exitCode = 1 ∧
        (extract source_id m store).manifest = m) := by
  intro sid m store
  rcases extract_spec sid m store with ⟨heq, hno⟩ |
    ⟨entry, f, fs, e, store', hL, hG, hP, heq⟩ |
    ⟨entry, f, fs, ext, store', hL, hG, hP, heq⟩
  · rw [heq]
    refine ⟨by simp, ?_, ?_, ?_⟩
    · intro h; cases h
    · intro h; cases h
    · intro entry f fs e hL hG _
      exact absurd hG (hno entry f fs hL)
  · rw [heq]
    refine ⟨by simp, fun _ => ⟨rfl, rfl⟩, ?_, fun _ _ _ _ _ _ _ => ⟨rfl, rfl⟩⟩
    intro h; cases h
  · rw [heq]
    refine ⟨by simp, ?_, ?_, ?_⟩
    · intro h; cases h
    · intro _
      exact ⟨rfl, entry, f, fs, ext, hL, hG, hP, rfl⟩
    · intro entry' f' fs' e' hL' hG' hP'
      rw [hL] at hL'
      injection hL' with hE
      subst hE
      have hlist : JVal.arr (f :: fs) = JVal.arr (f' :: fs') := by
        injection hG.symm.trans hG'
      injection hlist with hlist'
      rw [← hlist'] at hP'
      rw [hP] at hP'
      cases hP'

/-- Witness for C4: with the listed blob not a gzip stream the run
exits 1 and leaves the manifest untouched; with a well-formed gzip
stream the run exits 0 and performs the single combined manifest
update. -/
theorem extract_all_or_nothing_witness :
    ((extract "acme" gzManifest gzStoreBad).exitCode = 1 ∧
     (extract "acme" gzManifest gzStoreBad).manifest = gzManifest) ∧
    ((extract "acme" gzManifest gzStoreOk).exitCode = 0 ∧
     ∃ entry f fs ext, lookupKey gzManifest "acme" = some entry ∧
       getField entry "list_of_files" = some (JVal.arr (f :: fs)) ∧
       processFiles gzStoreOk (f :: fs) =
         ((extract "acme" gzManifest gzStoreOk).store, Except.ok ext) ∧
       (extract "acme" gzManifest gzStoreOk).manifest =
         setKey gzManifest "acme" (setField (setField entry "extracted" (JVal.bool true))
           "extracted_list_of_files" (JVal.arr ext))) := by
  constructor
  · exact (extract_all_or_nothing "acme" gzManifest gzStoreBad).2.2.2
      (JVal.obj
        [("version", JVal.str "2024-01-01"),
         ("update_ts", JVal.str "20240101_00:00:00"),
         ("hosts", JVal.arr ["ftp.acme.org"]),
         ("list_of_files", JVal.arr ["raw/acme/latest/2024-01-01/a.gz"])])
      "raw/acme/latest/2024-01-01/a.gz" [] "gzip: not a gzipped file" rfl rfl rfl
  · exact (extract_all_or_nothing "acme" gzManifest gzStoreOk).2.2.1 rfl

theorem zipMemberFold_snd (archive_root : String) :
    ∀ (ms : List (String × Bool × List Nat)) (st : Store) (acc : List String),
      (zipMemberFold archive_root (st, acc) ms).2 =
        acc ++ (ms.filter (fun mb => !mb.2.1)).map (fun mb => archive_root ++ "/" ++ mb.1) := by
  intro ms
  induction ms with
  | nil => intro st acc; simp [zipMemberFold]
  | cons mb rest ih =>
    intro st acc
    by_cases hd : mb.2.1 = true
    · simp [zipMemberFold, hd, ih, List.filter_cons]
    · simp only [Bool.not_eq_true] at hd
      simp [zipMemberFold, hd, ih, List.filter_cons]

theorem zipMemberFold_presence (archive_root : String) :
    ∀ (ms : List (String × Bool × List Nat)) (st : Store) (acc : List String) (p : String),
      (∃ d, lookupKey st p = some d) →
      ∃ d, lookupKey (zipMemberFold archive_root (st, acc) ms).1 p = some d := by
  intro ms
  induction ms with
  | nil => intro st acc p h; simpa [zipMemberFold] using h
  | cons mb rest ih =>
    intro st acc p h
    by_cases hd : mb.2.1 = true
    · simpa [zipMemberFold, hd] using ih st acc p h
    · simp only [Bool.not_eq_true] at hd
      simp only [zipMemberFold, hd, Bool.false_eq_true, if_false]
      exact ih _ _ p (lookupKey_setKey_pres st _ p _ h)

theorem zipMemberFold_covers (archive_root : String) :
    ∀ (ms : List (String × Bool × List Nat)) (st : Store) (acc : List String),
      ∀ mb ∈ ms, mb.2.1 = false →
        ∃ d, lookupKey (zipMemberFold archive_root (st, acc) ms).1
          (archive_root ++ "/" ++ mb.1) = some d := by
  intro ms
  induction ms with
  | nil => intro st acc mb hmem; cases hmem
  | cons mb0 rest ih =>
    intro st acc mb hmem hdir
    rcases List.mem_cons.mp hmem with heq | hmem'
    · subst heq
      simp only [zipMemberFold, hdir, Bool.false_eq_true, if_false]
      exact zipMemberFold_presence archive_root rest _ _ _
        ⟨_, lookupKey_setKey_self _ _ _⟩
    · by_cases hd : mb0.2.1 = true
      · simp only [zipMemberFold, hd, if_true]
        exact ih st acc mb hmem' hdir
      · simp only [Bool.not_eq_true] at hd
        simp only [zipMemberFold, hd, Bool.false_eq_true, if_false]
        exact ih _ _ mb hmem' hdir

/-- C5: extraction dispatches on magic bytes, not the extension: a
`.zip`-named blob whose first two bytes are the gzip magic is processed
by the gzip streaming path (its result is exactly the gzip
decompression outcome, one destination object, never the zip opener);
and a genuine zip archive yields exactly one extracted object per
non-directory member, written under the archive root with the member's
internal path preserved, each present in the resulting store. -/
theorem extract_format_dispatch :
    (∀ (store : Store) (path : String) (c : Content),
      pyEndsWith (pyLower path) ".zip" = true →
      pyEndsWith (pyLower path) ".gz" = false →
      lookupKey store path = some c →
      firstTwoBytes c = gzipMagic →
      processOne store path =
        (match stream_gzip_decompression store path
            (pyReplace (replaceFirst path "raw/" "extracted/") ".zip" "") with
         | Except.error e => Except.error e
         | Except.ok store' =>
             Except.ok (store', [pyReplace (replaceFirst path "raw/" "extracted/") ".zip" ""]))) ∧
    (∀ (store : Store) (path : String) (members : List (String × Bool × List Nat)),
      pyEndsWith (pyLower path) ".zip" = true →
      pyEndsWith (pyLower path) ".gz" = false →
      pyStartsWith path "raw/" = true →
      lookupKey store path = some (Content.zipArchive members) →
      ∃ store',
        processOne store path = Except.ok (store',
          (members.filter (fun mb => !mb.2.1)).map
            (fun mb => rsplitBeforeLastDot (replaceFirst path "raw/" "extracted/") ++
              "/" ++ mb.1)) ∧
        ∀ p ∈ (members.filter (fun mb => !mb.2.1)).map
            (fun mb => rsplitBeforeLastDot (replaceFirst path "raw/" "extracted/") ++
              "/" ++ mb.1),
          ∃ d, lookupKey store' p = some d) := by
  constructor
  · intro store path c h1 h2 hc hm
    simp [processOne, h1, h2, hc, hm]
  · intro store path members h1 h2 hr hc
    have hm : ¬ firstTwoBytes (Content.zipArchive members) = gzipMagic := by
      simp [firstTwoBytes, gzipMagic]
    have hzip : stream_zip_extraction store path =
        Except.ok (zipMemberFold
          (rsplitBeforeLastDot (replaceFirst path "raw/" "extracted/")) (store, []) members) := by
      simp [stream_zip_extraction, archive_root_from_blob_path, hr, hc, zipOpen]
    refine ⟨(zipMemberFold (rsplitBeforeLastDot (replaceFirst path "raw/" "extracted/"))
      (store, []) members).1, ?_, ?_⟩
    · have hone : processOne store path = stream_zip_extraction store path := by
        simp [processOne, h1, h2, hc, hm]
      rw [hone, hzip]
      have hse := zipMemberFold_snd
        (rsplitBeforeLastDot (replaceFirst path "raw/" "extracted/")) members store []
      rw [show (zipMemberFold (rsplitBeforeLastDot (replaceFirst path "raw/" "extracted/"))
          (store, []) members) =
        ((zipMemberFold (rsplitBeforeLastDot (replaceFirst path "raw/" "extracted/"))
          (store, []) members).1,
         (zipMemberFold (rsplitBeforeLastDot (replaceFirst path "raw/" "extracted/"))
          (store, []) members).2) from rfl, hse]
      simp
    · intro p hp
      rcases List.mem_map.mp hp with ⟨mb, hmb, rfl⟩
      have hmem := List.mem_filter.mp hmb
      refine zipMemberFold_covers _ members store [] mb hmem.1 ?_
      simpa using hmem.2

/-- Witness for C5: the misnamed `.zip` blob (gzip magic) goes through
the gzip path and produces a single decompressed object, and the
genuine zip archive produces one object per non-directory member with
paths preserved. -/
theorem extract_format_dispatch_witness :
    processOne zipStoreMisnamed "raw/s/latest/v1/data.zip" =
      Except.ok ([("raw/s/latest/v1/data.zip", Content.gzData [7]),
        ("extracted/s/latest/v1/data", Content.rawBytes [7])],
        ["extracted/s/latest/v1/data"]) ∧
    (∃ store',
      processOne zipStoreGenuine "raw/s/latest/v1/arch.zip" = Except.ok (store',
        (zipMembersDemo.filter (fun mb => !mb.2.1)).map
          (fun mb => rsplitBeforeLastDot
            (replaceFirst "raw/s/latest/v1/arch.zip" "raw/" "extracted/") ++ "/" ++ mb.1)) ∧
      ∀ p ∈ (zipMembersDemo.filter (fun mb => !mb.2.1)).map
          (fun mb => rsplitBeforeLastDot
            (replaceFirst "raw/s/latest/v1/arch.zip" "raw/" "extracted/") ++ "/" ++ mb.1),
        ∃ d, lookupKey store' p = some d) := by
  constructor
  · have h := extract_format_dispatch.1 zipStoreMisnamed "raw/s/latest/v1/data.zip"
      (Content.gzData [7]) (by decide) (by decide) rfl rfl
    exact h.trans rfl
  · exact extract_format_dispatch.2 zipStoreGenuine "raw/s/latest/v1/arch.zip"
      zipMembersDemo (by decide) (by decide) (by decide) rfl

/-- C7 counterexample: the entry persisted by a concrete
`update_manifest` write carries exactly the four fields `version`,
`update_ts`, `hosts`, `list_of_files`; the claimed `extracted` and
`extracted_list_of_files` fields are absent. -/
theorem manifest_entry_schema_cex :
    entryFieldNames (update_manifest [] "acme" "2024-01-01" "20240101_00:00:00"
      ["ftp.acme.org"] ["raw/acme/latest/2024-01-01/a.gz"]) "acme" =
      ["version", "update_ts", "hosts", "list_of_files"] ∧
    ¬ "extracted" ∈ entryFieldNames (update_manifest [] "acme" "2024-01-01"
      "20240101_00:00:00" ["ftp.acme.org"] ["raw/acme/latest/2024-01-01/a.gz"]) "acme" ∧
    ¬ "extracted_list_of_files" ∈ entryFieldNames (update_manifest [] "acme" "2024-01-01"
      "20240101_00:00:00" ["ftp.acme.org"] ["raw/acme/latest/2024-01-01/a.gz"]) "acme" :=
  ⟨rfl, by decide, by decide⟩

/-- C7 (amended): every entry persisted by `update_manifest` contains
exactly the four fields `version`, `update_ts`, `hosts`,
`list_of_files`; the fields `extracted` and `extracted_list_of_files`
are added only by a successful run of the extraction stage, after which
the entry carries all six declared fields. -/
theorem manifest_entry_schema_amended :
    ∀ (m : Manifest) (source_id version update_ts : String)
      (hosts list_of_files : List String) (store : Store),
      entryFieldNames (update_manifest m source_id version update_ts hosts list_of_files)
        source_id = ["version", "update_ts", "hosts", "list_of_files"] ∧
      ((extract source_id (update_manifest m source_id version update_ts hosts list_of_files)
          store).manifestWrites = 1 →
        entryFieldNames (extract source_id
            (update_manifest m source_id version update_ts hosts list_of_files) store).manifest
          source_id =
          ["version", "update_ts", "hosts", "list_of_files", "extracted",
           "extracted_list_of_files"]) := by
  intro m sid v ts hosts files store
  constructor
  · unfold entryFieldNames update_manifest
    rw [lookupKey_setKey_self]
    rfl
  · intro hW
    rcases extract_spec sid (update_manifest m sid v ts hosts files) store with
      ⟨heq, _⟩ | ⟨entry, f, fs, e, store', hL, hG, hP, heq⟩ |
      ⟨entry, f, fs, ext, store', hL, hG, hP, heq⟩
    · simp [heq] at hW
    · simp [heq] at hW
    · have hE : entry = JVal.obj
          [("version", JVal.str v), ("update_ts", JVal.str ts),
           ("hosts", JVal.arr hosts), ("list_of_files", JVal.arr files)] := by
        have hself := lookupKey_setKey_self m sid (JVal.obj
          [("version", JVal.str v), ("update_ts", JVal.str ts),
           ("hosts", JVal.arr hosts), ("list_of_files", JVal.arr files)])
        rw [update_manifest] at hL
        rw [hself] at hL
        injection hL with h
        exact h.symm
      rw [heq]
      show entryFieldNames (setKey (update_manifest m sid v ts hosts files) sid
        (setField (setField entry "extracted" (JVal.bool true))
          "extracted_list_of_files" (JVal.arr ext))) sid = _
      unfold entryFieldNames
      rw [lookupKey_setKey_self, hE]
      rfl

/-- Witness for C7: after a successful extraction run on top of a
concrete `update_manifest` write, the stored entry carries all six
fields. -/
theorem manifest_entry_schema_amended_witness :
    entryFieldNames (extract "acme" (update_manifest [] "acme" "2024-01-01"
      "20240101_00:00:00" ["ftp.acme.org"] ["raw/acme/latest/2024-01-01/a.gz"])
      gzStoreOk).manifest "acme" =
      ["version", "update_ts", "hosts", "list_of_files", "extracted",
       "extracted_list_of_files"] :=
  (manifest_entry_schema_amended [] "acme" "2024-01-01" "20240101_00:00:00"
    ["ftp.acme.org"] ["raw/acme/latest/2024-01-01/a.gz"] gzStoreOk).2 rfl
